import Mathlib

/-!
Verification of the `log4go` rotating file log writer (`filelog.go`).

The Go code is shallowly embedded as follows.

* `LogRecord` keeps the fields the core touches (`Source`) or passes through
  to the external formatter (`Level`, `Created`, `Message`).
* The external collaborators are abstracted in `Env`:
  `FormatLogRecord` becomes `Env.fmt`, and the calendar projections of Go's
  `time.Time` (`Year()`, `Month()`, `Day()`, `Hour()`, all in local time)
  become `Env.yearOf` … `Env.hourOf`, applied to an `Int` count of seconds.
  Clock reads (`time.Now()`) are explicit `now : Int` parameters.
* The `FileLogWriter` struct is split into its configuration fields
  (`Config`, only read by the write pipeline; the `Set*` methods run before
  the pipeline) and its mutable fields (`FWState`).  `FWState.primary` is
  the contents of the file at `filename` (`none` = no such file on disk),
  `FWState.disk` holds the archived files, and `FWState.isOpen` tracks
  whether an open handle exists (`w.file != nil` in Go; the file is `nil`
  only before the first open).  `os.Lstat` is abstracted as an oracle
  `ex : String → Bool`; `lstatOf` instantiates it with the model disk.
  Buffered writes are modelled as appending directly to the file contents
  (flushing moves bytes but never reorders them).
* Ghost fields (`rotations`, `errs`, `log`, `recBytes`) record observable
  events: rotation attempts (`intRotate` invocations), errors printed to
  stderr, the records given to the actual write, and the formatted bytes
  written for records (headers/trailers excluded), in order.
* The two goroutines (relay and writer loop) plus the channels `inRec`,
  `rec`, `rot` are modelled as a labelled transition system on `Sys`
  (channels as FIFO lists; the capacity bounds only create back-pressure
  and cannot affect ordering, so the lists are unbounded).  `Close()` is
  the function `closeW`.
-/

namespace Log4go

/-- A log record; mirrors the fields of Go's `LogRecord` that the file
writer touches or forwards to the formatter. -/
structure LogRecord where
  level : Int
  created : Int
  source : String
  message : String
deriving DecidableEq, Repr

/-- External collaborators: the record formatter `FormatLogRecord` and the
calendar field projections of `time.Time` (seconds since epoch ↦ field). -/
structure Env where
  fmt : String → LogRecord → String
  yearOf : Int → Int
  monthOf : Int → Int
  dayOf : Int → Int
  hourOf : Int → Int

/-- The configuration fields of `FileLogWriter`; they are only read by the
write pipeline (the `Set*` methods must run before the first write). -/
structure Config where
  filename : String
  format : String
  header : String
  trailer : String
  maxlines : Int
  maxsize : Int
  daily : Bool
  hour : Bool
  rotate : Bool
  pfx : String
deriving DecidableEq

/-- The mutable fields of `FileLogWriter` plus the model filesystem and
ghost observation fields (see the module comment). -/
structure FWState where
  maxlines_curlines : Int
  maxsize_cursize : Int
  daily_opendate : Int
  hour_opendate : Int
  primary : Option (List String)
  isOpen : Bool
  disk : List (String × List String)
  rotations : Nat
  errs : Nat
  log : List LogRecord
  recBytes : List String
deriving DecidableEq

/-- The record `&LogRecord{Created: now}` used for headers and trailers. -/
def hdrRec (now : Int) : LogRecord :=
  { level := 0, created := now, source := "", message := "" }

/-- Go's `%02d` format verb (for the non-negative values produced by
`time.Time` field accessors). -/
def pad2 (n : Int) : String :=
  if 0 ≤ n ∧ n < 10 then "0" ++ toString n else toString n

/-- Go's `%03d` format verb (for the sequence numbers 1–999). -/
def pad3 (n : Nat) : String :=
  if n < 10 then "00" ++ toString n
  else if n < 100 then "0" ++ toString n
  else toString n

/-- The timestamp part of an archive name:
`fmt.Sprintf("-%d-%02d-%02d-%02d+", t.Year(), t.Month(), t.Day(), t.Hour())`. -/
def stampOf (env : Env) (t : Int) : String :=
  "-" ++ toString (env.yearOf t) ++ "-" ++ pad2 (env.monthOf t) ++ "-"
    ++ pad2 (env.dayOf t) ++ "-" ++ pad2 (env.hourOf t) ++ "+"

/-- The full archive filename `w.filename + "-%d-%02d-%02d-%02d+" + "%03d"`. -/
def archiveName (env : Env) (path : String) (t : Int) (num : Nat) : String :=
  path ++ stampOf env t ++ pad3 num

/-- Go's `strings.TrimPrefix`. -/
def trimPfx (p s : String) : String :=
  if p.isPrefixOf s then s.drop p.length else s

/-- The archive-number search loop of `intRotate`:
`for ; err == nil && num <= 999; num++ { fname = …num…; _, err = os.Lstat(fname) }`.
`ex n` answers whether the candidate with number `n` exists; the loop
returns the first number whose candidate does not exist, or `none` when
`fuel` candidates (999 in the source) all exist. -/
def findSeq (ex : Nat → Bool) (num fuel : Nat) : Option Nat :=
  match fuel with
  | 0 => none
  | f + 1 => if ex num then findSeq ex (num + 1) f else some num

/-- `closeFile`: if a file is open, write the formatted trailer, flush, and
close the handle.  (A failed trailer write or flush is only reported, and
the handle is closed regardless, so the model keeps the contents.) -/
def closeFile (env : Env) (cfg : Config) (now : Int) (st : FWState) : FWState :=
  if st.isOpen then
    { st with
      primary := st.primary.map (fun c => c ++ [env.fmt cfg.trailer (hdrRec now)]),
      isOpen := false }
  else st

/-- `os.OpenFile(filename, O_WRONLY|O_APPEND|O_CREATE, 0660)` followed by
`newFile`: reuse the contents on disk (append/create), install a fresh
buffered writer, and write the formatted header. -/
def newFile (env : Env) (cfg : Config) (now : Int) (st : FWState) : FWState :=
  { st with
    isOpen := true,
    primary := some ((st.primary.getD []) ++ [env.fmt cfg.header (hdrRec now)]) }

/-- The tail of `intRotate` after a (possible) rename: open the new file,
set the daily/hourly open dates to `now`, and reset the session counters. -/
def openNew (env : Env) (cfg : Config) (now : Int) (st : FWState) : FWState :=
  let st := newFile env cfg now st
  { st with
    daily_opendate := env.dayOf now,
    hour_opendate := env.hourOf now,
    maxlines_curlines := 0,
    maxsize_cursize := 0 }

/-- `intRotate(last bool) error`.  Closes any open file, computes the
archive timestamp (`now.Add(-time.Second * 3600)` when `last`), renames the
existing file to the first free archive name when retention is on (an
error when all 999 candidates exist), and opens the new file.  The ghost
field `rotations` counts `intRotate` invocations (rotation attempts). -/
def intRotate (env : Env) (cfg : Config) (ex : String → Bool) (last : Bool)
    (now : Int) (st : FWState) : FWState × Option String :=
  let st1 := closeFile env cfg now st
  let st1 := { st1 with rotations := st1.rotations + 1 }
  let lastTime := if last then now - 3600 else now
  if cfg.rotate && ex cfg.filename then
    match findSeq (fun n => ex (archiveName env cfg.filename lastTime n)) 1 999 with
    | none => (st1, some "Rotate: Cannot find free log number to rename")
    | some num =>
      (openNew env cfg now
        { st1 with
          disk := (archiveName env cfg.filename lastTime num, st1.primary.getD []) :: st1.disk,
          primary := none }, none)
  else (openNew env cfg now st1, none)

/-- The first rotation check of `write`:
`(maxlines > 0 && maxlines_curlines >= maxlines) || (maxsize > 0 && maxsize_cursize >= maxsize)`. -/
def linesizeTrig (cfg : Config) (st : FWState) : Bool :=
  (decide (0 < cfg.maxlines) && decide (cfg.maxlines ≤ st.maxlines_curlines))
    || (decide (0 < cfg.maxsize) && decide (cfg.maxsize ≤ st.maxsize_cursize))

/-- The daily rotation check of `write`: `daily && now.Day() != daily_opendate`. -/
def dailyTrig (env : Env) (cfg : Config) (now : Int) (st : FWState) : Bool :=
  cfg.daily && decide (env.dayOf now ≠ st.daily_opendate)

/-- The hourly rotation check of `write`: `hour && now.Hour() != hour_opendate`. -/
def hourTrig (env : Env) (cfg : Config) (now : Int) (st : FWState) : Bool :=
  cfg.hour && decide (env.hourOf now ≠ st.hour_opendate)

/-- The final part of `write`: trim the source prefix, format the record,
and buffer it; on success update the session counters (`n` is the byte
length of the written string).  `wfail` says whether this `WriteString`
call fails (the error is then reported and nothing is counted). -/
def doWrite (env : Env) (cfg : Config) (wfail : Bool) (r : LogRecord)
    (st : FWState) : FWState :=
  let r2 := { r with source := trimPfx cfg.pfx r.source }
  let text := env.fmt cfg.format r2
  if wfail then { st with errs := st.errs + 1 }
  else
    { st with
      primary := st.primary.map (fun c => c ++ [text]),
      maxlines_curlines := st.maxlines_curlines + 1,
      maxsize_cursize := st.maxsize_cursize + (text.utf8ByteSize : Int),
      log := st.log ++ [r],
      recBytes := st.recBytes ++ [text] }

/-- The clock readings one `write` call can take, one field per
`time.Now()` call site: `rot1` is the reading of a line/size-triggered
`intRotate` (filelog.go:242), `wnow` is `write`'s own reading
(filelog.go:116, taken after that rotation and used by both the daily and
the hourly check), and `rot2`/`rot3` are the readings of a daily- resp.
hourly-triggered `intRotate`.  Distinct fields keep mid-write boundary
crossings representable. -/
structure Clocks where
  rot1 : Int
  wnow : Int
  rot2 : Int
  rot3 : Int
deriving DecidableEq

/-- The readings of a write during which the clock does not advance
across any reading (no boundary crossing mid-write). -/
def oneClock (t : Int) : Clocks :=
  { rot1 := t, wnow := t, rot2 := t, rot3 := t }

/-- The hourly check of `write` followed by the actual write.  The check
compares `write`'s reading `ck.wnow`; a triggered rotation takes its own
reading `ck.rot3`. -/
def writeHour (env : Env) (cfg : Config) (ex : String → Bool) (ck : Clocks)
    (wfail : Bool) (r : LogRecord) (st : FWState) : FWState :=
  if hourTrig env cfg ck.wnow st then
    let q := intRotate env cfg ex true ck.rot3 st
    match q.2 with
    | some _ => { q.1 with errs := q.1.errs + 1 }
    | none => doWrite env cfg wfail r q.1
  else doWrite env cfg wfail r st

/-- The daily check of `write` followed by the hourly check and the write.
The check compares `write`'s reading `ck.wnow`; a triggered rotation takes
its own reading `ck.rot2`. -/
def writeDaily (env : Env) (cfg : Config) (ex : String → Bool) (ck : Clocks)
    (wfail : Bool) (r : LogRecord) (st : FWState) : FWState :=
  if dailyTrig env cfg ck.wnow st then
    let q := intRotate env cfg ex true ck.rot2 st
    match q.2 with
    | some _ => { q.1 with errs := q.1.errs + 1 }
    | none => writeHour env cfg ex ck wfail r q.1
  else writeHour env cfg ex ck wfail r st

/-- `write(rec *LogRecord)`: the line/size check, then the daily check,
then the hourly check (each rotation error is reported and aborts the
write), then the buffered write with counter updates.  A triggered
line/size rotation reads the clock at `ck.rot1`; `write` then reads
`ck.wnow` for the two date checks. -/
def write (env : Env) (cfg : Config) (ex : String → Bool) (ck : Clocks)
    (wfail : Bool) (r : LogRecord) (st : FWState) : FWState :=
  if linesizeTrig cfg st then
    let q := intRotate env cfg ex false ck.rot1 st
    match q.2 with
    | some _ => { q.1 with errs := q.1.errs + 1 }
    | none => writeDaily env cfg ex ck wfail r q.1
  else writeDaily env cfg ex ck wfail r st

/-- The events the writer-loop goroutine can select on: the explicit
rotate channel `rot`, a record from `rec` (with its clock reading and
whether the buffered write fails), the flush ticker, and `closeCh`. -/
inductive LoopSig where
  | rotSig (now : Int)
  | recSig (ck : Clocks) (wfail : Bool) (r : LogRecord)
  | tickSig
  | closeSig
deriving DecidableEq

/-- Outcome of one iteration of the writer-loop goroutine: keep looping
with the new state, or return (the goroutine exits). -/
inductive LoopRes where
  | cont (st : FWState)
  | exitLoop (st : FWState)
deriving DecidableEq

/-- Whether a writer-loop iteration exited the goroutine. -/
def LoopRes.isExit : LoopRes → Bool
  | .cont _ => false
  | .exitLoop _ => true

/-- One iteration of the writer-loop goroutine in `NewFileLogWriter`.
On the `rot` channel a failed `intRotate` prints the error and `return`s
(the branch the source marks with a bug comment); a record is handled by
`write`; a tick flushes (contents unchanged); `closeCh` returns. -/
def writerStep (env : Env) (cfg : Config) (ex : String → Bool) :
    LoopSig → FWState → LoopRes
  | .rotSig now, st =>
    match intRotate env cfg ex false now st with
    | (st1, some _) => .exitLoop { st1 with errs := st1.errs + 1 }
    | (st1, none) => .cont st1
  | .recSig ck wfail r, st => .cont (write env cfg ex ck wfail r st)
  | .tickSig, st => .cont st
  | .closeSig, st => .exitLoop st

/-- `SetHeadFoot(head, foot)`: store the new templates and, when no line
has been counted in the current session, immediately buffer the formatted
new header. -/
def SetHeadFoot (env : Env) (now : Int) (head foot : String) (cfg : Config)
    (st : FWState) : Config × FWState :=
  let cfg := { cfg with header := head, trailer := foot }
  if st.maxlines_curlines = 0 then
    (cfg, { st with primary := st.primary.map (fun c => c ++ [env.fmt head (hdrRec now)]) })
  else (cfg, st)

/-- The whole running system: the writer state, the three channels as FIFO
lists (`inRecQ` = `inRec`, `recQ` = `rec`; `rot` arrivals are actions), the
relay's in-flight record `msg`, whether the writer-loop goroutine is still
running, and the ghost list of all records enqueued, in enqueue order. -/
structure Sys where
  fw : FWState
  inRecQ : List LogRecord
  recQ : List LogRecord
  msgQ : List LogRecord
  msg : Option LogRecord
  alive : Bool
  enq : List LogRecord
deriving DecidableEq

/-- An interleaving step: a producer's `LogWrite`, the relay accepting from
`inRec` or handing to `rec`, the writer loop serving `rot`, a record, or a
tick.  Each carries the clock readings the corresponding Go code takes. -/
inductive Act where
  | enqueue (r : LogRecord)
  | relayRecv
  | relayHand
  | rotSig (now : Int)
  | consume (ck : Clocks)
  | tick
deriving DecidableEq

/-- A producer's `LogWrite(rec)`: send the record on the `inRec` channel.
The position the send wins in the channel defines the enqueue order. -/
def stepEnqueue (r : LogRecord) (s : Sys) : Sys :=
  { s with inRecQ := s.inRecQ ++ [r], enq := s.enq ++ [r] }

/-- The relay goroutine accepting a record from `inRec`: push it on the
back of the overflow list and, when no record is in flight, promote the
list's front to the in-flight slot. -/
def stepRelayRecv (s : Sys) : Sys :=
  match s.inRecQ with
  | [] => s
  | r :: rest =>
    match s.msg with
    | some _ => { s with inRecQ := rest, msgQ := s.msgQ ++ [r] }
    | none =>
      match s.msgQ ++ [r] with
      | [] => s
      | m :: qrest => { s with inRecQ := rest, msgQ := qrest, msg := some m }

/-- The relay goroutine handing the in-flight record to the `rec` channel
and promoting the next overflow entry (or clearing the slot). -/
def stepRelayHand (s : Sys) : Sys :=
  match s.msg with
  | none => s
  | some m =>
    match s.msgQ with
    | [] => { s with recQ := s.recQ ++ [m], msg := none }
    | m2 :: qrest => { s with recQ := s.recQ ++ [m], msgQ := qrest, msg := some m2 }

/-- The writer-loop goroutine serving the explicit rotate channel; on a
rotation error it reports and exits (the source's unhandled-bug branch). -/
def stepRot (env : Env) (cfg : Config) (ex : String → Bool) (now : Int)
    (s : Sys) : Sys :=
  if s.alive then
    match intRotate env cfg ex false now s.fw with
    | (fw, some _) => { s with fw := { fw with errs := fw.errs + 1 }, alive := false }
    | (fw, none) => { s with fw := fw }
  else s

/-- The writer-loop goroutine consuming one record from the `rec` channel
(with the clock readings that `write` call takes). -/
def stepConsume (env : Env) (cfg : Config) (ex : String → Bool) (ck : Clocks)
    (s : Sys) : Sys :=
  if s.alive then
    match s.recQ with
    | [] => s
    | r :: rest => { s with fw := write env cfg ex ck false r s.fw, recQ := rest }
  else s

/-- The interleaving semantics: one labelled step of the system.  An action
whose guard is not enabled (empty channel, no in-flight record, dead
writer) leaves the state unchanged. -/
def sysStep (env : Env) (cfg : Config) (ex : String → Bool) (s : Sys) :
    Act → Sys
  | .enqueue r => stepEnqueue r s
  | .relayRecv => stepRelayRecv s
  | .relayHand => stepRelayHand s
  | .rotSig now => stepRot env cfg ex now s
  | .consume ck => stepConsume env cfg ex ck s
  | .tick => s

/-- Run a list of interleaving steps. -/
def runActs (env : Env) (cfg : Config) (ex : String → Bool)
    (acts : List Act) (s : Sys) : Sys :=
  acts.foldl (sysStep env cfg ex) s

/-- The relay goroutine's reaction to `closeCh`: push any in-flight record
back to the front of the overflow list and exit. -/
def relayClose (s : Sys) : Sys :=
  match s.msg with
  | none => s
  | some m => { s with msgQ := m :: s.msgQ, msg := none }

/-- One of the drain loops of `Close`: write every record of the list, in
order, through the ordinary `write`. -/
def drainList (env : Env) (cfg : Config) (ex : String → Bool) (ck : Clocks)
    (rs : List LogRecord) (st : FWState) : FWState :=
  rs.foldl (fun st r => write env cfg ex ck false r st) st

/-- `Close()`: signal `closeCh` (the relay pushes its in-flight record
back, both goroutines exit), then drain the `rec` channel, then the
overflow list, then the `inRec` channel, writing each record, and finally
close the file. -/
def closeW (env : Env) (cfg : Config) (ex : String → Bool) (ck : Clocks)
    (s : Sys) : Sys :=
  let s := relayClose s
  let fw := drainList env cfg ex ck s.recQ s.fw
  let fw := drainList env cfg ex ck s.msgQ fw
  let fw := drainList env cfg ex ck s.inRecQ fw
  let fw := closeFile env cfg ck.wnow fw
  { s with fw := fw, recQ := [], msgQ := [], inRecQ := [], alive := false }

/-- The zero `FileLogWriter` state before `NewFileLogWriter` opens the
file: no file on disk at the path (`primary0` generalizes this), nothing
open, all counters and ghosts zero. -/
def initFW (primary0 : Option (List String)) : FWState :=
  { maxlines_curlines := 0, maxsize_cursize := 0, daily_opendate := 0,
    hour_opendate := 0, primary := primary0, isOpen := false, disk := [],
    rotations := 0, errs := 0, log := [], recBytes := [] }

/-- `NewFileLogWriter`: the first `intRotate(false)` call that opens the
file (construction fails when it errors). -/
def newWriter (env : Env) (cfg : Config) (ex : String → Bool)
    (primary0 : Option (List String)) (now : Int) : FWState × Option String :=
  intRotate env cfg ex false now (initFW primary0)

/-- A filesystem oracle with no files at all (fresh directory). -/
def exFalse : String → Bool := fun _ => false

/-- The system right after `NewFileLogWriter` on a fresh directory. -/
def initSys (env : Env) (cfg : Config) (now0 : Int) : Sys :=
  { fw := (newWriter env cfg exFalse none now0).1, inRecQ := [], recQ := [],
    msgQ := [], msg := none, alive := true, enq := [] }

/-- The records enqueued by a list of actions, in order. -/
def enqList (acts : List Act) : List LogRecord :=
  acts.filterMap (fun a => match a with | .enqueue r => some r | _ => none)

/-- The bytes `write` produces for a record: the format template applied
after the source prefix is trimmed. -/
def fmtOf (env : Env) (cfg : Config) (r : LogRecord) : String :=
  env.fmt cfg.format { r with source := trimPfx cfg.pfx r.source }

/-- The records still travelling between the producers and the writer, in
the order they must come out. -/
def pendingOf (s : Sys) : List LogRecord :=
  s.recQ ++ s.msg.toList ++ s.msgQ ++ s.inRecQ

/-- The `os.Lstat` oracle matching the model filesystem: the primary path
exists when `primary` is present, an archive path when it is on `disk`. -/
def lstatOf (cfg : Config) (st : FWState) (n : String) : Bool :=
  if n = cfg.filename then st.primary.isSome
  else st.disk.any (fun p => p.1 = n)

/-- A `write` call against the model filesystem itself, during which the
clock does not advance. -/
def writeFS (env : Env) (cfg : Config) (now : Int) (r : LogRecord)
    (st : FWState) : FWState :=
  write env cfg (lstatOf cfg st) (oneClock now) false r st

/-! ### Concrete instances for concrete executions -/

/-- A concrete external environment: the formatter prefixes the message
with the template (an empty template — the default header/trailer —
formats to the empty string) and every calendar projection is the
identity on the seconds count. -/
def env0 : Env :=
  { fmt := fun t r => if t = "" then "" else t ++ r.message,
    yearOf := fun t => t, monthOf := fun t => t, dayOf := fun t => t,
    hourOf := fun t => t }

/-- A baseline configuration: no thresholds, no retention, format `F`. -/
def cfgPlain : Config :=
  { filename := "app.log", format := "F", header := "", trailer := "",
    maxlines := 0, maxsize := 0, daily := false, hour := false,
    rotate := false, pfx := "" }

/-- Retention on and a one-line rotation threshold. -/
def cfgLines1 : Config :=
  { cfgPlain with maxlines := 1, rotate := true }

/-- Retention on and daily rotation enabled. -/
def cfgDaily : Config :=
  { cfgPlain with daily := true, rotate := true }

/-- Retention on, a one-line threshold and daily rotation enabled. -/
def cfgLinesDaily : Config :=
  { cfgPlain with maxlines := 1, daily := true, rotate := true }

/-- Clock readings of a write during which midnight passes between the
line-count rotation's own reading and the reading `write` takes next
(`env0.dayOf` is the identity, so day 0 becomes day 86400). -/
def ckMidnight : Clocks :=
  { rot1 := 0, wnow := 86400, rot2 := 86400, rot3 := 86400 }

/-- Retention on and a three-line rotation threshold. -/
def cfg8 : Config :=
  { cfgPlain with maxlines := 3, rotate := true }

/-- Concrete records. -/
def recA : LogRecord := { level := 0, created := 0, source := "", message := "A" }

/-- A second concrete record. -/
def recB : LogRecord := { level := 0, created := 0, source := "", message := "B" }

/-- An open session holding only its header line. -/
def stPlain : FWState := { initFW (some [""]) with isOpen := true }

/-- An open session with one line already counted. -/
def stOneLine : FWState :=
  { initFW (some ["x"]) with maxlines_curlines := 1, isOpen := true }

/-- A system after cancellation, about to drain one overflow record. -/
def sysDrain1 : Sys :=
  { fw := stOneLine, inRecQ := [], recQ := [], msgQ := [recA], msg := none,
    alive := false, enq := [recA] }

/-- A system after cancellation with one record buffered in the entry
channel and one in the overflow list. -/
def sysDrain2 : Sys :=
  { fw := stPlain, inRecQ := [recA], recQ := [], msgQ := [recB], msg := none,
    alive := false, enq := [recB, recA] }

/-- The Lstat oracle of a filesystem where every path exists. -/
def exTrue : String → Bool := fun _ => true

/-- The Lstat oracle where only the primary log file exists. -/
def exPrimary : String → Bool := fun n => decide (n = "app.log")

/-- The Lstat oracle where the primary file and archive number 1 exist. -/
def exPrim1 : String → Bool :=
  fun n => decide (n = "app.log" ∨ n = archiveName env0 "app.log" 0 1)

/-- The seven records of the line-count-rotation scenario, with the clock
reading taken at each write. -/
def recs8 : List (Int × String) :=
  [(1, "a"), (2, "b"), (3, "c"), (4, "d"), (5, "e"), (6, "f"), (7, "g")]

/-- The writer state fresh out of `NewFileLogWriter` in a fresh directory. -/
def st80 : FWState := (newWriter env0 cfg8 exFalse none 0).1

/-- The first `n` of the seven records written through the writer against
the model filesystem. -/
def run8 (n : Nat) : FWState :=
  (recs8.take n).foldl
    (fun st p =>
      writeFS env0 cfg8 p.1 { level := 0, created := 0, source := "", message := p.2 } st)
    st80

/-! ### Projection lemmas for the file-session operations -/

@[simp]
theorem closeFile_rotations (env : Env) (cfg : Config) (now : Int) (st : FWState) :
    (closeFile env cfg now st).rotations = st.rotations := by
  unfold closeFile; split <;> rfl

@[simp]
theorem closeFile_errs (env : Env) (cfg : Config) (now : Int) (st : FWState) :
    (closeFile env cfg now st).errs = st.errs := by
  unfold closeFile; split <;> rfl

@[simp]
theorem closeFile_log (env : Env) (cfg : Config) (now : Int) (st : FWState) :
    (closeFile env cfg now st).log = st.log := by
  unfold closeFile; split <;> rfl

@[simp]
theorem closeFile_recBytes (env : Env) (cfg : Config) (now : Int) (st : FWState) :
    (closeFile env cfg now st).recBytes = st.recBytes := by
  unfold closeFile; split <;> rfl

@[simp]
theorem closeFile_disk (env : Env) (cfg : Config) (now : Int) (st : FWState) :
    (closeFile env cfg now st).disk = st.disk := by
  unfold closeFile; split <;> rfl

@[simp]
theorem closeFile_curlines (env : Env) (cfg : Config) (now : Int) (st : FWState) :
    (closeFile env cfg now st).maxlines_curlines = st.maxlines_curlines := by
  unfold closeFile; split <;> rfl

@[simp]
theorem closeFile_cursize (env : Env) (cfg : Config) (now : Int) (st : FWState) :
    (closeFile env cfg now st).maxsize_cursize = st.maxsize_cursize := by
  unfold closeFile; split <;> rfl

@[simp]
theorem closeFile_isOpen (env : Env) (cfg : Config) (now : Int) (st : FWState) :
    (closeFile env cfg now st).isOpen = false := by
  unfold closeFile; split
  · rfl
  · simp_all

@[simp]
theorem openNew_primary (env : Env) (cfg : Config) (now : Int) (st : FWState) :
    (openNew env cfg now st).primary
      = some ((st.primary.getD []) ++ [env.fmt cfg.header (hdrRec now)]) := by
  rfl

@[simp]
theorem openNew_rotations (env : Env) (cfg : Config) (now : Int) (st : FWState) :
    (openNew env cfg now st).rotations = st.rotations := by
  rfl

@[simp]
theorem openNew_errs (env : Env) (cfg : Config) (now : Int) (st : FWState) :
    (openNew env cfg now st).errs = st.errs := by
  rfl

@[simp]
theorem openNew_log (env : Env) (cfg : Config) (now : Int) (st : FWState) :
    (openNew env cfg now st).log = st.log := by
  rfl

@[simp]
theorem openNew_recBytes (env : Env) (cfg : Config) (now : Int) (st : FWState) :
    (openNew env cfg now st).recBytes = st.recBytes := by
  rfl

@[simp]
theorem openNew_disk (env : Env) (cfg : Config) (now : Int) (st : FWState) :
    (openNew env cfg now st).disk = st.disk := by
  rfl

@[simp]
theorem openNew_daily_opendate (env : Env) (cfg : Config) (now : Int) (st : FWState) :
    (openNew env cfg now st).daily_opendate = env.dayOf now := by
  rfl

@[simp]
theorem openNew_hour_opendate (env : Env) (cfg : Config) (now : Int) (st : FWState) :
    (openNew env cfg now st).hour_opendate = env.hourOf now := by
  rfl

@[simp]
theorem openNew_curlines (env : Env) (cfg : Config) (now : Int) (st : FWState) :
    (openNew env cfg now st).maxlines_curlines = 0 := by
  rfl

@[simp]
theorem openNew_cursize (env : Env) (cfg : Config) (now : Int) (st : FWState) :
    (openNew env cfg now st).maxsize_cursize = 0 := by
  rfl

@[simp]
theorem doWrite_rotations (env : Env) (cfg : Config) (wf : Bool) (r : LogRecord) (st : FWState) :
    (doWrite env cfg wf r st).rotations = st.rotations := by
  unfold doWrite; split <;> rfl

@[simp]
theorem doWrite_disk (env : Env) (cfg : Config) (wf : Bool) (r : LogRecord) (st : FWState) :
    (doWrite env cfg wf r st).disk = st.disk := by
  unfold doWrite; split <;> rfl

/-! ### Lemmas about `intRotate` -/

theorem intRotate_rotations (env : Env) (cfg : Config) (ex : String → Bool)
    (last : Bool) (now : Int) (st : FWState) :
    (intRotate env cfg ex last now st).1.rotations = st.rotations + 1 := by
  unfold intRotate
  dsimp only
  repeat' split
  all_goals simp

theorem intRotate_log (env : Env) (cfg : Config) (ex : String → Bool)
    (last : Bool) (now : Int) (st : FWState) :
    (intRotate env cfg ex last now st).1.log = st.log := by
  unfold intRotate
  dsimp only
  repeat' split
  all_goals simp

theorem intRotate_recBytes (env : Env) (cfg : Config) (ex : String → Bool)
    (last : Bool) (now : Int) (st : FWState) :
    (intRotate env cfg ex last now st).1.recBytes = st.recBytes := by
  unfold intRotate
  dsimp only
  repeat' split
  all_goals simp

theorem intRotate_errs (env : Env) (cfg : Config) (ex : String → Bool)
    (last : Bool) (now : Int) (st : FWState) :
    (intRotate env cfg ex last now st).1.errs = st.errs := by
  unfold intRotate
  dsimp only
  repeat' split
  all_goals simp

theorem intRotate_none_resets (env : Env) (cfg : Config) (ex : String → Bool)
    (last : Bool) (now : Int) (st : FWState)
    (h : (intRotate env cfg ex last now st).2 = none) :
    (intRotate env cfg ex last now st).1.daily_opendate = env.dayOf now ∧
    (intRotate env cfg ex last now st).1.hour_opendate = env.hourOf now ∧
    (intRotate env cfg ex last now st).1.maxlines_curlines = 0 ∧
    (intRotate env cfg ex last now st).1.maxsize_cursize = 0 := by
  revert h
  unfold intRotate
  dsimp only
  repeat' split
  all_goals intro h
  all_goals simp_all

theorem intRotate_exFalse_none (env : Env) (cfg : Config) (last : Bool)
    (now : Int) (st : FWState) :
    (intRotate env cfg exFalse last now st).2 = none := by
  unfold intRotate exFalse
  simp

/-! ### The rotation checks after a successful rotation -/

theorem dailyTrig_of_opendate (env : Env) (cfg : Config) (now : Int) (st : FWState)
    (h : st.daily_opendate = env.dayOf now) : dailyTrig env cfg now st = false := by
  simp [dailyTrig, h]

theorem hourTrig_of_opendate (env : Env) (cfg : Config) (now : Int) (st : FWState)
    (h : st.hour_opendate = env.hourOf now) : hourTrig env cfg now st = false := by
  simp [hourTrig, h]

/-! ### Rotation counting: at most one rotation attempt per record -/

theorem writeHour_rotations (env : Env) (cfg : Config) (ex : String → Bool)
    (ck : Clocks) (wf : Bool) (r : LogRecord) (st : FWState) :
    (writeHour env cfg ex ck wf r st).rotations
      = st.rotations + (if hourTrig env cfg ck.wnow st then 1 else 0) := by
  unfold writeHour
  dsimp only
  split
  · rename_i ht
    rcases he : (intRotate env cfg ex true ck.rot3 st).2 with _ | e
    · simp [ht, intRotate_rotations]
    · simp [ht, intRotate_rotations]
  · rename_i ht
    have ht' : hourTrig env cfg ck.wnow st = false := by simpa using ht
    simp [ht']

theorem writeDaily_rotations_le (env : Env) (cfg : Config) (ex : String → Bool)
    (ck : Clocks) (wf : Bool) (r : LogRecord) (st : FWState) :
    (writeDaily env cfg ex ck wf r st).rotations ≤ st.rotations + 2 := by
  unfold writeDaily
  dsimp only
  split
  · rcases he : (intRotate env cfg ex true ck.rot2 st).2 with _ | e
    · dsimp only
      rw [writeHour_rotations, intRotate_rotations]
      split <;> omega
    · dsimp only
      rw [intRotate_rotations]
      omega
  · rw [writeHour_rotations]
    split <;> omega

theorem writeDaily_rotations_one (env : Env) (cfg : Config) (ex : String → Bool)
    (now : Int) (wf : Bool) (r : LogRecord) (st : FWState) :
    (writeDaily env cfg ex (oneClock now) wf r st).rotations
      = st.rotations
        + (if dailyTrig env cfg now st || hourTrig env cfg now st then 1 else 0) := by
  unfold writeDaily oneClock
  dsimp only
  split
  · rename_i hd
    rcases he : (intRotate env cfg ex true now st).2 with _ | e
    · dsimp only
      rw [writeHour_rotations]
      have hres := intRotate_none_resets env cfg ex true now st he
      rw [hourTrig_of_opendate env cfg now _ hres.2.1]
      simp [hd, intRotate_rotations]
    · simp [hd, intRotate_rotations]
  · rename_i hd
    rw [writeHour_rotations]
    have hd' : dailyTrig env cfg now st = false := by simpa using hd
    simp [hd']

theorem write_rotations_le (env : Env) (cfg : Config) (ex : String → Bool)
    (ck : Clocks) (wf : Bool) (r : LogRecord) (st : FWState) :
    (write env cfg ex ck wf r st).rotations ≤ st.rotations + 3 := by
  unfold write
  dsimp only
  split
  · rcases he : (intRotate env cfg ex false ck.rot1 st).2 with _ | e
    · dsimp only
      have hle := writeDaily_rotations_le env cfg ex ck wf r
        (intRotate env cfg ex false ck.rot1 st).1
      rw [intRotate_rotations] at hle
      omega
    · dsimp only
      rw [intRotate_rotations]
      omega
  · have hle := writeDaily_rotations_le env cfg ex ck wf r st
    omega

theorem write_rotations_one (env : Env) (cfg : Config) (ex : String → Bool)
    (now : Int) (wf : Bool) (r : LogRecord) (st : FWState) :
    (write env cfg ex (oneClock now) wf r st).rotations
      = st.rotations
        + (if linesizeTrig cfg st || dailyTrig env cfg now st || hourTrig env cfg now st
           then 1 else 0) := by
  unfold write oneClock
  dsimp only
  split
  · rename_i hl
    rcases he : (intRotate env cfg ex false now st).2 with _ | e
    · dsimp only
      rw [show ({ rot1 := now, wnow := now, rot2 := now, rot3 := now } : Clocks)
            = oneClock now from rfl,
        writeDaily_rotations_one]
      have hres := intRotate_none_resets env cfg ex false now st he
      rw [dailyTrig_of_opendate env cfg now _ hres.1,
        hourTrig_of_opendate env cfg now _ hres.2.1]
      simp [hl, intRotate_rotations]
    · simp [hl, intRotate_rotations]
  · rename_i hl
    rw [show ({ rot1 := now, wnow := now, rot2 := now, rot3 := now } : Clocks)
          = oneClock now from rfl,
      writeDaily_rotations_one]
    have hl' : linesizeTrig cfg st = false := by simpa using hl
    simp [hl']

/-! ### The ghost record trace of a failure-free write -/

theorem doWrite_trace (env : Env) (cfg : Config) (r : LogRecord) (st : FWState) :
    (doWrite env cfg false r st).log = st.log ++ [r] ∧
    (doWrite env cfg false r st).recBytes = st.recBytes ++ [fmtOf env cfg r] := by
  unfold doWrite fmtOf
  simp

theorem writeHour_exFalse_trace (env : Env) (cfg : Config) (ck : Clocks)
    (r : LogRecord) (st : FWState) :
    (writeHour env cfg exFalse ck false r st).log = st.log ++ [r] ∧
    (writeHour env cfg exFalse ck false r st).recBytes
      = st.recBytes ++ [fmtOf env cfg r] := by
  unfold writeHour
  dsimp only
  split
  · rcases he : (intRotate env cfg exFalse true ck.rot3 st).2 with _ | e
    · dsimp only
      rcases doWrite_trace env cfg r (intRotate env cfg exFalse true ck.rot3 st).1
        with ⟨h1, h2⟩
      rw [h1, h2, intRotate_log, intRotate_recBytes]
      exact ⟨rfl, rfl⟩
    · exact absurd he (by rw [intRotate_exFalse_none]; simp)
  · exact doWrite_trace env cfg r st

theorem writeDaily_exFalse_trace (env : Env) (cfg : Config) (ck : Clocks)
    (r : LogRecord) (st : FWState) :
    (writeDaily env cfg exFalse ck false r st).log = st.log ++ [r] ∧
    (writeDaily env cfg exFalse ck false r st).recBytes
      = st.recBytes ++ [fmtOf env cfg r] := by
  unfold writeDaily
  dsimp only
  split
  · rcases he : (intRotate env cfg exFalse true ck.rot2 st).2 with _ | e
    · dsimp only
      rcases writeHour_exFalse_trace env cfg ck r (intRotate env cfg exFalse true ck.rot2 st).1
        with ⟨h1, h2⟩
      rw [h1, h2, intRotate_log, intRotate_recBytes]
      exact ⟨rfl, rfl⟩
    · exact absurd he (by rw [intRotate_exFalse_none]; simp)
  · exact writeHour_exFalse_trace env cfg ck r st

theorem write_exFalse_trace (env : Env) (cfg : Config) (ck : Clocks)
    (r : LogRecord) (st : FWState) :
    (write env cfg exFalse ck false r st).log = st.log ++ [r] ∧
    (write env cfg exFalse ck false r st).recBytes
      = st.recBytes ++ [fmtOf env cfg r] := by
  unfold write
  dsimp only
  split
  · rcases he : (intRotate env cfg exFalse false ck.rot1 st).2 with _ | e
    · dsimp only
      rcases writeDaily_exFalse_trace env cfg ck r (intRotate env cfg exFalse false ck.rot1 st).1
        with ⟨h1, h2⟩
      rw [h1, h2, intRotate_log, intRotate_recBytes]
      exact ⟨rfl, rfl⟩
    · exact absurd he (by rw [intRotate_exFalse_none]; simp)
  · exact writeDaily_exFalse_trace env cfg ck r st

/-! ### Characterization of the archive-number search -/

theorem findSeq_none_of_all (exN : Nat → Bool) (num fuel : Nat)
    (h : ∀ m, num ≤ m → m < num + fuel → exN m = true) :
    findSeq exN num fuel = none := by
  induction fuel generalizing num with
  | zero => rfl
  | succ f ih =>
    unfold findSeq
    rw [h num le_rfl (by omega)]
    simp only [if_true]
    exact ih (num + 1) (fun m h1 h2 => h m (by omega) (by omega))

theorem findSeq_least (exN : Nat → Bool) (num fuel k : Nat)
    (h1 : num ≤ k) (h2 : k < num + fuel) (hk : exN k = false)
    (hmin : ∀ m, num ≤ m → m < k → exN m = true) :
    findSeq exN num fuel = some k := by
  induction fuel generalizing num with
  | zero => omega
  | succ f ih =>
    unfold findSeq
    rcases Nat.eq_or_lt_of_le h1 with heq | hlt
    · rw [heq, hk]
      simp [heq]
    · rw [hmin num le_rfl hlt]
      simp only [if_true]
      exact ih (num + 1) hlt (by omega) (fun m hm1 hm2 => hmin m (by omega) hm2)

/-! ### Rename outcomes of `intRotate` -/

theorem intRotate_all_taken (env : Env) (cfg : Config) (ex : String → Bool)
    (last : Bool) (now : Int) (st : FWState)
    (hrot : cfg.rotate = true) (hex : ex cfg.filename = true)
    (hall : ∀ n, 1 ≤ n → n ≤ 999 →
      ex (archiveName env cfg.filename (if last then now - 3600 else now) n) = true) :
    (intRotate env cfg ex last now st).2.isSome = true ∧
    (intRotate env cfg ex last now st).1.disk = st.disk := by
  have hseq :
      findSeq (fun n => ex (archiveName env cfg.filename (if last then now - 3600 else now) n))
        1 999 = none :=
    findSeq_none_of_all _ 1 999 (fun m h1 h2 => hall m h1 (by omega))
  unfold intRotate
  dsimp only
  split
  · rw [hseq]
    dsimp only
    exact ⟨rfl, by simp⟩
  · rename_i hcond
    rw [hrot, hex] at hcond
    simp at hcond

theorem intRotate_rename (env : Env) (cfg : Config) (ex : String → Bool)
    (last : Bool) (now : Int) (st : FWState) (k : Nat)
    (hrot : cfg.rotate = true) (hex : ex cfg.filename = true)
    (hseq : findSeq (fun n => ex (archiveName env cfg.filename (if last then now - 3600 else now) n))
        1 999 = some k) :
    (intRotate env cfg ex last now st).2 = none ∧
    (intRotate env cfg ex last now st).1.disk
      = (archiveName env cfg.filename (if last then now - 3600 else now) k,
         (closeFile env cfg now st).primary.getD []) :: st.disk := by
  unfold intRotate
  dsimp only
  split
  · rw [hseq]
    dsimp only
    exact ⟨rfl, by simp⟩
  · rename_i hcond
    rw [hrot, hex] at hcond
    simp at hcond

theorem write_rotfail_drops (env : Env) (cfg : Config) (ex : String → Bool)
    (ck : Clocks) (wf : Bool) (r : LogRecord) (st : FWState)
    (htrig : linesizeTrig cfg st = true)
    (herr : (intRotate env cfg ex false ck.rot1 st).2.isSome = true) :
    write env cfg ex ck wf r st
      = { (intRotate env cfg ex false ck.rot1 st).1 with
          errs := (intRotate env cfg ex false ck.rot1 st).1.errs + 1 } := by
  unfold write
  dsimp only
  rcases he : (intRotate env cfg ex false ck.rot1 st).2 with _ | e
  · rw [he] at herr
    simp at herr
  · simp [htrig]

theorem writeHour_disk_notrig (env : Env) (cfg : Config) (ex : String → Bool)
    (ck : Clocks) (wf : Bool) (r : LogRecord) (st : FWState)
    (hh : hourTrig env cfg ck.wnow st = false) :
    (writeHour env cfg ex ck wf r st).disk = st.disk := by
  simp [writeHour, hh]

theorem writeDaily_disk_notrig (env : Env) (cfg : Config) (ex : String → Bool)
    (ck : Clocks) (wf : Bool) (r : LogRecord) (st : FWState)
    (hd : dailyTrig env cfg ck.wnow st = false)
    (hh : hourTrig env cfg ck.wnow st = false) :
    (writeDaily env cfg ex ck wf r st).disk = st.disk := by
  simp [writeDaily, hd, writeHour_disk_notrig env cfg ex ck wf r st hh]

/-! ### Drain and shutdown lemmas -/

theorem drainList_exFalse_log (env : Env) (cfg : Config) (ck : Clocks)
    (rs : List LogRecord) (st : FWState) :
    (drainList env cfg exFalse ck rs st).log = st.log ++ rs := by
  induction rs generalizing st with
  | nil => simp [drainList]
  | cons r rs ih =>
    unfold drainList at ih ⊢
    simp only [List.foldl_cons]
    rw [ih, (write_exFalse_trace env cfg ck r st).1]
    simp

theorem drainList_exFalse_recBytes (env : Env) (cfg : Config) (ck : Clocks)
    (rs : List LogRecord) (st : FWState) :
    (drainList env cfg exFalse ck rs st).recBytes
      = st.recBytes ++ rs.map (fmtOf env cfg) := by
  induction rs generalizing st with
  | nil => simp [drainList]
  | cons r rs ih =>
    unfold drainList at ih ⊢
    simp only [List.foldl_cons]
    rw [ih, (write_exFalse_trace env cfg ck r st).2]
    simp

theorem closeW_exFalse_log (env : Env) (cfg : Config) (ck : Clocks) (s : Sys) :
    (closeW env cfg exFalse ck s).fw.log = s.fw.log ++ pendingOf s := by
  unfold closeW relayClose
  dsimp only
  rcases hm : s.msg with _ | m <;>
    simp [pendingOf, hm, drainList_exFalse_log, List.append_assoc]

theorem closeW_exFalse_recBytes (env : Env) (cfg : Config) (ck : Clocks) (s : Sys) :
    (closeW env cfg exFalse ck s).fw.recBytes
      = s.fw.recBytes ++ (pendingOf s).map (fmtOf env cfg) := by
  unfold closeW relayClose
  dsimp only
  rcases hm : s.msg with _ | m <;>
    simp [pendingOf, hm, drainList_exFalse_recBytes, List.append_assoc]

/-! ### The FIFO invariant of the hand-off queue -/

/-- The ordering invariant: the records already written plus the records
still pending, in order, are exactly the records enqueued so far, and the
bytes written so far are the formatted written records. -/
def InvC1 (env : Env) (cfg : Config) (s : Sys) : Prop :=
  s.fw.log ++ pendingOf s = s.enq ∧
  s.fw.recBytes = (s.fw.log).map (fmtOf env cfg)

theorem stepEnqueue_inv (env : Env) (cfg : Config) (r : LogRecord) (s : Sys)
    (h : InvC1 env cfg s) : InvC1 env cfg (stepEnqueue r s) := by
  obtain ⟨fw, inq, rq, mq, mg, al, eq⟩ := s
  obtain ⟨h1, h2⟩ := h
  unfold InvC1 pendingOf stepEnqueue at *
  dsimp only at *
  refine ⟨?_, h2⟩
  rw [← h1]
  simp

theorem stepRelayRecv_inv (env : Env) (cfg : Config) (s : Sys)
    (h : InvC1 env cfg s) : InvC1 env cfg (stepRelayRecv s) := by
  obtain ⟨fw, inq, rq, mq, mg, al, eq⟩ := s
  obtain ⟨h1, h2⟩ := h
  unfold InvC1 pendingOf stepRelayRecv at *
  dsimp only at *
  rcases inq with _ | ⟨r, rest⟩
  · exact ⟨h1, h2⟩
  · dsimp only
    rcases mg with _ | m
    · dsimp only
      rcases hq2 : mq ++ [r] with _ | ⟨m2, qrest⟩
      · simp at hq2
      · dsimp only
        refine ⟨?_, h2⟩
        rw [← h1]
        have hsplit : mq ++ r :: rest = m2 :: (qrest ++ rest) := by
          have hx : mq ++ r :: rest = (mq ++ [r]) ++ rest := by simp
          rw [hx, hq2]
          rfl
        simp only [Option.toList, List.append_assoc, List.nil_append,
          List.cons_append, List.singleton_append]
        rw [hsplit]
    · dsimp only
      refine ⟨?_, h2⟩
      rw [← h1]
      simp

theorem stepRelayHand_inv (env : Env) (cfg : Config) (s : Sys)
    (h : InvC1 env cfg s) : InvC1 env cfg (stepRelayHand s) := by
  obtain ⟨fw, inq, rq, mq, mg, al, eq⟩ := s
  obtain ⟨h1, h2⟩ := h
  unfold InvC1 pendingOf stepRelayHand at *
  dsimp only at *
  rcases mg with _ | m
  · exact ⟨h1, h2⟩
  · dsimp only
    rcases mq with _ | ⟨m2, qrest⟩ <;>
    · dsimp only
      refine ⟨?_, h2⟩
      rw [← h1]
      simp [Option.toList]

theorem stepRot_inv (env : Env) (cfg : Config) (now : Int) (s : Sys)
    (h : InvC1 env cfg s) : InvC1 env cfg (stepRot env cfg exFalse now s) := by
  obtain ⟨fw, inq, rq, mq, mg, al, eq⟩ := s
  obtain ⟨h1, h2⟩ := h
  unfold InvC1 pendingOf stepRot at *
  dsimp only at *
  split
  · rcases hI : intRotate env cfg exFalse false now fw with ⟨fw1, e⟩
    have hloge : fw1.log = fw.log := by
      have hx := intRotate_log env cfg exFalse false now fw
      rw [hI] at hx; exact hx
    have hrece : fw1.recBytes = fw.recBytes := by
      have hx := intRotate_recBytes env cfg exFalse false now fw
      rw [hI] at hx; exact hx
    rcases e with _ | err <;>
    · dsimp only
      constructor
      · rw [hloge]
        exact h1
      · rw [hrece, hloge]
        exact h2
  · exact ⟨h1, h2⟩

theorem stepConsume_inv (env : Env) (cfg : Config) (ck : Clocks) (s : Sys)
    (h : InvC1 env cfg s) : InvC1 env cfg (stepConsume env cfg exFalse ck s) := by
  obtain ⟨fw, inq, rq, mq, mg, al, eq⟩ := s
  obtain ⟨h1, h2⟩ := h
  unfold InvC1 pendingOf stepConsume at *
  dsimp only at *
  split
  · rcases rq with _ | ⟨r, rest⟩
    · exact ⟨h1, h2⟩
    · dsimp only
      rcases write_exFalse_trace env cfg ck r fw with ⟨g1, g2⟩
      constructor
      · rw [g1, ← h1]
        simp
      · rw [g2, g1, h2]
        simp
  · exact ⟨h1, h2⟩

theorem sysStep_inv (env : Env) (cfg : Config) (s : Sys) (a : Act)
    (h : InvC1 env cfg s) : InvC1 env cfg (sysStep env cfg exFalse s a) := by
  cases a with
  | enqueue r => exact stepEnqueue_inv env cfg r s h
  | relayRecv => exact stepRelayRecv_inv env cfg s h
  | relayHand => exact stepRelayHand_inv env cfg s h
  | rotSig now => exact stepRot_inv env cfg now s h
  | consume ck => exact stepConsume_inv env cfg ck s h
  | tick => exact h

theorem runActs_inv (env : Env) (cfg : Config) (acts : List Act) (s : Sys)
    (h : InvC1 env cfg s) : InvC1 env cfg (runActs env cfg exFalse acts s) := by
  induction acts generalizing s with
  | nil => exact h
  | cons a acts ih =>
    unfold runActs at ih ⊢
    simp only [List.foldl_cons]
    exact ih (sysStep env cfg exFalse s a) (sysStep_inv env cfg s a h)

/-! ### The ghost enqueue trace of a run -/

theorem sysStep_enq (env : Env) (cfg : Config) (ex : String → Bool) (s : Sys)
    (a : Act) :
    (sysStep env cfg ex s a).enq
      = s.enq ++ (match a with | .enqueue r => [r] | _ => []) := by
  obtain ⟨fw, inq, rq, mq, mg, al, eq⟩ := s
  cases a with
  | enqueue r => simp [sysStep, stepEnqueue]
  | relayRecv =>
    unfold sysStep stepRelayRecv
    dsimp only
    rcases inq with _ | ⟨r, rest⟩
    · simp
    · dsimp only
      rcases mg with _ | m
      · dsimp only
        rcases hq2 : mq ++ [r] with _ | ⟨m2, qrest⟩
        · simp at hq2
        · dsimp only
          simp
      · dsimp only
        simp
  | relayHand =>
    unfold sysStep stepRelayHand
    dsimp only
    rcases mg with _ | m
    · simp
    · dsimp only
      rcases mq with _ | ⟨m2, qrest⟩ <;> simp
  | rotSig now =>
    unfold sysStep stepRot
    dsimp only
    split
    · rcases hI : intRotate env cfg ex false now fw with ⟨fw1, e⟩
      rcases e with _ | err <;> simp
    · simp
  | consume ck =>
    unfold sysStep stepConsume
    dsimp only
    split
    · rcases rq with _ | ⟨r, rest⟩ <;> simp
    · simp
  | tick => simp [sysStep]

theorem runActs_enq (env : Env) (cfg : Config) (ex : String → Bool)
    (acts : List Act) (s : Sys) :
    (runActs env cfg ex acts s).enq = s.enq ++ enqList acts := by
  induction acts generalizing s with
  | nil => simp [runActs, enqList]
  | cons a acts ih =>
    unfold runActs at ih ⊢
    simp only [List.foldl_cons]
    rw [ih, sysStep_enq]
    cases a <;> simp [enqList]

/-! ### The claims -/

/-- C1: for every interleaving of producer enqueues, relay steps, writer
steps, explicit rotate signals and flush ticks, followed by `Close`, the
record bytes written across the log files are exactly the enqueued
records, formatted, in their enqueue order — the relay (`inRec` channel,
overflow list, `rec` channel) never reorders records, and neither a
rotation nor the shutdown drain does.  The per-write clock readings are
arbitrary.  (Shown for failure-free I/O — a fresh directory and
succeeding writes — which the ordering property presupposes.) -/
theorem c1_order_preserved (env : Env) (cfg : Config) (acts : List Act)
    (now0 : Int) (ckC : Clocks) :
    (closeW env cfg exFalse ckC
        (runActs env cfg exFalse acts (initSys env cfg now0))).fw.recBytes
      = (enqList acts).map (fmtOf env cfg) := by
  have hinv0 : InvC1 env cfg (initSys env cfg now0) := by
    unfold InvC1 initSys pendingOf newWriter
    dsimp only
    constructor
    · rw [intRotate_log]
      simp [initFW]
    · rw [intRotate_recBytes, intRotate_log]
      simp [initFW]
  obtain ⟨h1, h2⟩ := runActs_inv env cfg acts _ hinv0
  have henq := runActs_enq env cfg exFalse acts (initSys env cfg now0)
  rw [closeW_exFalse_recBytes, h2, ← List.map_append, h1, henq]
  simp [initSys]

/-- C2 counterexample: a state whose line counter has already reached the
one-line threshold; the single record drained by `Close` after the
cancellation signal triggers a rotation (archive created, rotation attempt
counted), refuting the claim that a drain never rotates regardless of the
counters. -/
theorem c2_counterexample :
    sysDrain1.fw.rotations = 0 ∧ sysDrain1.fw.disk.length = 0 ∧
    (closeW env0 cfgLines1 exPrimary (oneClock 5) sysDrain1).fw.rotations = 1 ∧
    (closeW env0 cfgLines1 exPrimary (oneClock 5) sysDrain1).fw.disk.length = 1 := by
  decide

/-- C2 (amended): the shutdown drain writes each remaining record through
the ordinary `write`, so the rotation thresholds are evaluated during the
drain and a rotation attempt happens exactly when one of them fires on the
current state — a drain can rotate mid-drain. -/
theorem c2_amended_drain_rotates (env : Env) (cfg : Config) (ex : String → Bool)
    (now : Int) (st : FWState) (r : LogRecord) :
    (closeW env cfg ex (oneClock now)
        { fw := st, inRecQ := [], recQ := [], msgQ := [r], msg := none,
          alive := false, enq := [r] }).fw.rotations
      = st.rotations
        + (if linesizeTrig cfg st || dailyTrig env cfg now st || hourTrig env cfg now st
           then 1 else 0) := by
  unfold closeW relayClose
  dsimp only
  simp only [drainList, List.foldl_cons, List.foldl_nil]
  rw [closeFile_rotations, write_rotations_one]

set_option maxRecDepth 40000 in
/-- C3: the claim states the writer loop survives any rotation failure,
and the source itself marks the violating branch as an unhandled bug
(`神一样的Bug---未处理`): when the explicit rotate signal arrives and the
rotation fails (here: every archive name exists), the goroutine returns —
the loop terminates — while the identical failure on a record-triggered
rotation leaves the loop running. -/
theorem c3_rot_signal_kills_loop :
    (writerStep env0 cfgLines1 exTrue (.rotSig 0) stOneLine).isExit = true ∧
    (writerStep env0 cfgLines1 exTrue (.recSig (oneClock 0) false recA) stOneLine).isExit
      = false := by
  decide

/-- C4 counterexample: with record A buffered in the entry channel and
record B in the overflow list, `Close` writes B before A — the code drains
the delivery channel, then the overflow list, and the entry channel only
last, not first as the claim orders it. -/
theorem c4_counterexample :
    (closeW env0 cfgPlain exFalse (oneClock 0) sysDrain2).fw.recBytes = ["FB", "FA"] ∧
    (closeW env0 cfgPlain exFalse (oneClock 0) sysDrain2).fw.recBytes ≠ ["FA", "FB"] := by
  decide

/-- C4 (amended): `Close`, after both background tasks exit (the relay
pushing its in-flight record back to the overflow front), drains the
delivery channel `rec` first, then the overflow list, then the
entry channel `inRec`, in that order, and closes the file session last. -/
theorem c4_amended_drain_order (env : Env) (cfg : Config) (ck : Clocks) (s : Sys) :
    (closeW env cfg exFalse ck s).fw.recBytes
      = s.fw.recBytes
        ++ ((s.recQ ++ (s.msg.toList ++ s.msgQ) ++ s.inRecQ).map (fmtOf env cfg)) ∧
    (closeW env cfg exFalse ck s).fw.isOpen = false := by
  constructor
  · rw [closeW_exFalse_recBytes]
    simp [pendingOf, List.append_assoc]
  · unfold closeW
    dsimp only
    rw [closeFile_isOpen]

/-- C5 counterexample: the checks share no clock reading in the source —
`write` re-reads `time.Now()` (filelog.go:116) after a line/size-triggered
`intRotate`, whose own reading (filelog.go:242) set the new open dates.
With the one-line threshold reached, daily rotation on, and midnight
passing between those two readings (`ckMidnight`), the daily check fires
against the just-reset open date and the same record performs a second
rotation: two rotation attempts, two archives. -/
theorem c5_counterexample :
    stOneLine.rotations = 0 ∧ stOneLine.disk.length = 0 ∧
    (write env0 cfgLinesDaily exPrimary ckMidnight false recA stOneLine).rotations = 2 ∧
    (write env0 cfgLinesDaily exPrimary ckMidnight false recA stOneLine).disk.length = 2 := by
  decide

/-- C5 (amended): `write` evaluates the rotation checks in the fixed
order line-count/size, daily, hourly, and each check triggers at most one
rotation, so at most three rotation attempts per record.  When the clock
readings taken during the write coincide — no day or hour boundary is
crossed mid-write — at most one rotation is performed, the first true
check's, because the rotation resets the counters and open dates; but
since `write` re-reads the clock after a triggered rotation, a boundary
crossing mid-write can make a later check trigger an additional rotation
for the same record. -/
theorem c5_amended_rotation_bound (env : Env) (cfg : Config)
    (ex : String → Bool) (now : Int) (ck : Clocks) (wf : Bool) (r : LogRecord)
    (st : FWState) :
    (write env cfg ex (oneClock now) wf r st).rotations
      = st.rotations
        + (if linesizeTrig cfg st || dailyTrig env cfg now st || hourTrig env cfg now st
           then 1 else 0) ∧
    (write env cfg ex ck wf r st).rotations ≤ st.rotations + 3 :=
  ⟨write_rotations_one env cfg ex now wf r st,
   write_rotations_le env cfg ex ck wf r st⟩

/-- C6: with retention on and the primary file present, rotation renames
it to `archiveName` (`{path}-{year}-{month:02}-{day:02}-{hour:02}+{seq:03}`)
with the smallest `seq` in 1..999 whose name is free; when all 999 names
exist the rotation fails, no archive is created, the triggering record is
dropped (not logged, not written, not requeued) and the error is
reported.  The stamp of a line/size-triggered rotation inside `write` is
that rotation's own clock reading `ck.rot1`. -/
theorem c6_archive_naming (env : Env) (cfg : Config) (ex : String → Bool)
    (now : Int) (ck : Clocks) (wf : Bool) (r : LogRecord) (st : FWState) :
    ((cfg.rotate = true) → (ex cfg.filename = true) →
      (∀ n, 1 ≤ n → n ≤ 999 → ex (archiveName env cfg.filename ck.rot1 n) = true) →
      (linesizeTrig cfg st = true) →
        (write env cfg ex ck wf r st).log = st.log ∧
        (write env cfg ex ck wf r st).recBytes = st.recBytes ∧
        (write env cfg ex ck wf r st).disk = st.disk ∧
        (write env cfg ex ck wf r st).errs = st.errs + 1) ∧
    (∀ k, 1 ≤ k → k ≤ 999 →
      (cfg.rotate = true) → (ex cfg.filename = true) →
      (ex (archiveName env cfg.filename now k) = false) →
      (∀ m, 1 ≤ m → m < k → ex (archiveName env cfg.filename now m) = true) →
        (intRotate env cfg ex false now st).2 = none ∧
        (intRotate env cfg ex false now st).1.disk.head?.map Prod.fst
          = some (archiveName env cfg.filename now k)) := by
  constructor
  · intro hrot hex hall htrig
    have hAT := intRotate_all_taken env cfg ex false ck.rot1 st hrot hex (by simpa using hall)
    have hw := write_rotfail_drops env cfg ex ck wf r st htrig hAT.1
    rw [hw]
    refine ⟨?_, ?_, ?_, ?_⟩
    · simp [intRotate_log]
    · simp [intRotate_recBytes]
    · simp [hAT.2]
    · simp [intRotate_errs]
  · intro k hk1 hk2 hrot hex hfree hmin
    have hseq : findSeq (fun n => ex (archiveName env cfg.filename now n)) 1 999 = some k :=
      findSeq_least _ 1 999 k hk1 (by omega) hfree hmin
    have hres := intRotate_rename env cfg ex false now st k hrot hex hseq
    refine ⟨hres.1, ?_⟩
    rw [hres.2]
    rfl

/-- C6 witness: with every name taken the one-line-threshold write drops
its record and reports; with the primary and archive 001 existing, the
rename picks seq 002. -/
theorem c6_archive_naming_witness :
    ((write env0 cfgLines1 exTrue (oneClock 0) false recA stOneLine).log = stOneLine.log ∧
     (write env0 cfgLines1 exTrue (oneClock 0) false recA stOneLine).recBytes
       = stOneLine.recBytes ∧
     (write env0 cfgLines1 exTrue (oneClock 0) false recA stOneLine).disk = stOneLine.disk ∧
     (write env0 cfgLines1 exTrue (oneClock 0) false recA stOneLine).errs
       = stOneLine.errs + 1) ∧
    ((intRotate env0 cfgLines1 exPrim1 false 0 stOneLine).2 = none ∧
     (intRotate env0 cfgLines1 exPrim1 false 0 stOneLine).1.disk.head?.map Prod.fst
       = some (archiveName env0 cfgLines1.filename 0 2)) := by
  constructor
  · exact (c6_archive_naming env0 cfgLines1 exTrue 0 (oneClock 0) false recA stOneLine).1
      (by decide) (by decide) (fun _ _ _ => rfl) (by decide)
  · exact (c6_archive_naming env0 cfgLines1 exPrim1 0 (oneClock 0) false recA stOneLine).2 2
      (by decide) (by decide) (by decide) (by decide) (by decide)
      (fun m h1 h2 => by
        have hm : m = 1 := by omega
        subst hm
        decide)

/-- C7: a rotation in "last" mode (the daily and hourly boundary paths of
`write`) stamps the archive name with the rotation time minus exactly one
hour (3600 s), attributing it to the period that just ended; a rotation in
non-"last" mode (the line-count/size path) stamps the rotation time
unmodified.  The `write`-level parts are shown for a write during which
the clock does not advance, so the rotation time is the write's `now`. -/
theorem c7_last_mode_timestamp (env : Env) (cfg : Config) (ex : String → Bool)
    (now : Int) (wf : Bool) (r : LogRecord) (st : FWState) :
    ((cfg.rotate = true) → (ex cfg.filename = true) →
      (ex (archiveName env cfg.filename (now - 3600) 1) = false) →
      (intRotate env cfg ex true now st).1.disk.head?.map Prod.fst
        = some (archiveName env cfg.filename (now - 3600) 1)) ∧
    ((cfg.rotate = true) → (ex cfg.filename = true) →
      (ex (archiveName env cfg.filename now 1) = false) →
      (intRotate env cfg ex false now st).1.disk.head?.map Prod.fst
        = some (archiveName env cfg.filename now 1)) ∧
    ((linesizeTrig cfg st = false) → (dailyTrig env cfg now st = true) →
      (cfg.rotate = true) → (ex cfg.filename = true) →
      (ex (archiveName env cfg.filename (now - 3600) 1) = false) →
      (write env cfg ex (oneClock now) wf r st).disk.head?.map Prod.fst
        = some (archiveName env cfg.filename (now - 3600) 1)) ∧
    ((linesizeTrig cfg st = true) → (cfg.rotate = true) → (ex cfg.filename = true) →
      (ex (archiveName env cfg.filename now 1) = false) →
      (write env cfg ex (oneClock now) wf r st).disk.head?.map Prod.fst
        = some (archiveName env cfg.filename now 1)) := by
  refine ⟨?_, ?_, ?_, ?_⟩
  · intro hrot hex hfree
    have hseq : findSeq (fun n => ex (archiveName env cfg.filename (now - 3600) n)) 1 999
        = some 1 :=
      findSeq_least _ 1 999 1 le_rfl (by omega) hfree (fun m h1 h2 => absurd h2 (by omega))
    have hres := intRotate_rename env cfg ex true now st 1 hrot hex hseq
    rw [hres.2]
    rfl
  · intro hrot hex hfree
    have hseq : findSeq (fun n => ex (archiveName env cfg.filename now n)) 1 999 = some 1 :=
      findSeq_least _ 1 999 1 le_rfl (by omega) hfree (fun m h1 h2 => absurd h2 (by omega))
    have hres := intRotate_rename env cfg ex false now st 1 hrot hex hseq
    rw [hres.2]
    rfl
  · intro hl hd hrot hex hfree
    have hseq : findSeq (fun n => ex (archiveName env cfg.filename (now - 3600) n)) 1 999
        = some 1 :=
      findSeq_least _ 1 999 1 le_rfl (by omega) hfree (fun m h1 h2 => absurd h2 (by omega))
    have hres := intRotate_rename env cfg ex true now st 1 hrot hex hseq
    unfold write oneClock
    dsimp only
    split
    · rename_i h
      rw [hl] at h
      simp at h
    · unfold writeDaily
      dsimp only
      split
      · rcases he : (intRotate env cfg ex true now st).2 with _ | e
        · dsimp only
          have hh : hourTrig env cfg now (intRotate env cfg ex true now st).1 = false :=
            hourTrig_of_opendate env cfg now _
              (intRotate_none_resets env cfg ex true now st he).2.1
          rw [writeHour_disk_notrig env cfg ex
              { rot1 := now, wnow := now, rot2 := now, rot3 := now } wf r _ hh,
            hres.2]
          rfl
        · rw [hres.1] at he
          simp at he
      · rename_i h
        exact absurd hd h
  · intro hl hrot hex hfree
    have hseq : findSeq (fun n => ex (archiveName env cfg.filename now n)) 1 999 = some 1 :=
      findSeq_least _ 1 999 1 le_rfl (by omega) hfree (fun m h1 h2 => absurd h2 (by omega))
    have hres := intRotate_rename env cfg ex false now st 1 hrot hex hseq
    unfold write oneClock
    dsimp only
    split
    · rcases he : (intRotate env cfg ex false now st).2 with _ | e
      · dsimp only
        have hreset := intRotate_none_resets env cfg ex false now st he
        have hdf : dailyTrig env cfg now (intRotate env cfg ex false now st).1 = false :=
          dailyTrig_of_opendate env cfg now _ hreset.1
        have hhf : hourTrig env cfg now (intRotate env cfg ex false now st).1 = false :=
          hourTrig_of_opendate env cfg now _ hreset.2.1
        rw [writeDaily_disk_notrig env cfg ex
            { rot1 := now, wnow := now, rot2 := now, rot3 := now } wf r _ hdf hhf,
          hres.2]
        rfl
      · rw [hres.1] at he
        simp at he
    · rename_i h
      exact absurd hl h

/-- C7 witness: on a filesystem holding only the primary file, the "last"
rotation archives under the stamp of `now - 3600` and the non-"last" one
under the stamp of `now`; the daily path of `write` stamps `now - 3600`. -/
theorem c7_last_mode_timestamp_witness :
    ((intRotate env0 cfgLines1 exPrimary true 7200 stOneLine).1.disk.head?.map Prod.fst
       = some (archiveName env0 cfgLines1.filename (7200 - 3600) 1)) ∧
    ((intRotate env0 cfgLines1 exPrimary false 7200 stOneLine).1.disk.head?.map Prod.fst
       = some (archiveName env0 cfgLines1.filename 7200 1)) ∧
    ((write env0 cfgDaily exPrimary (oneClock 7200) false recA stOneLine).disk.head?.map
        Prod.fst
       = some (archiveName env0 cfgDaily.filename (7200 - 3600) 1)) ∧
    ((write env0 cfgLines1 exPrimary (oneClock 7200) false recA stOneLine).disk.head?.map
        Prod.fst
       = some (archiveName env0 cfgLines1.filename 7200 1)) :=
  ⟨(c7_last_mode_timestamp env0 cfgLines1 exPrimary 7200 false recA stOneLine).1
      (by decide) (by decide) (by decide),
   (c7_last_mode_timestamp env0 cfgLines1 exPrimary 7200 false recA stOneLine).2.1
      (by decide) (by decide) (by decide),
   (c7_last_mode_timestamp env0 cfgDaily exPrimary 7200 false recA stOneLine).2.2.1
      (by decide) (by decide) (by decide) (by decide) (by decide),
   (c7_last_mode_timestamp env0 cfgLines1 exPrimary 7200 false recA stOneLine).2.2.2
      (by decide) (by decide) (by decide) (by decide)⟩

/-- C8: with max-lines 3 and seven records, rotations happen exactly
before the 4th and the 7th write: the two archives hold three formatted
records each (between the empty header and trailer lines), the primary
holds the final one, and the counter (reset on each rotation) ends at 1. -/
theorem c8_line_count_rotation :
    (run8 3).disk.length = 0 ∧ (run8 4).disk.length = 1 ∧
    (run8 6).disk.length = 1 ∧
    (run8 7).disk
      = [("app.log-7-07-07-07+001", ["", "Fd", "Fe", "Ff", ""]),
         ("app.log-4-04-04-04+001", ["", "Fa", "Fb", "Fc", ""])] ∧
    (run8 7).primary = some ["", "Fg"] ∧
    (run8 7).maxlines_curlines = 1 ∧
    (run8 7).recBytes = ["Fa", "Fb", "Fc", "Fd", "Fe", "Ff", "Fg"] := by
  decide

/-- C9: when no rotation check fires and the buffered write of the record
fails, the only state change is the reported error — the line and byte
counters, the file contents and the ghosts are untouched, the record is
not retried, and the writer loop continues.  Holds for arbitrary clock
readings of the write. -/
theorem c9_write_failure (env : Env) (cfg : Config) (ex : String → Bool)
    (ck : Clocks) (r : LogRecord) (st : FWState)
    (hl : linesizeTrig cfg st = false) (hd : dailyTrig env cfg ck.wnow st = false)
    (hh : hourTrig env cfg ck.wnow st = false) :
    write env cfg ex ck true r st = { st with errs := st.errs + 1 } ∧
    writerStep env cfg ex (.recSig ck true r) st
      = .cont { st with errs := st.errs + 1 } := by
  have h1 : write env cfg ex ck true r st = { st with errs := st.errs + 1 } := by
    simp [write, writeDaily, writeHour, doWrite, hl, hd, hh]
  exact ⟨h1, by simp [writerStep, h1]⟩

/-- C9 witness: a failing write on the plain configuration only counts the
reported error and the loop keeps running. -/
theorem c9_write_failure_witness :
    write env0 cfgPlain exFalse (oneClock 0) true recA stPlain
      = { stPlain with errs := stPlain.errs + 1 } ∧
    writerStep env0 cfgPlain exFalse (.recSig (oneClock 0) true recA) stPlain
      = .cont { stPlain with errs := stPlain.errs + 1 } :=
  c9_write_failure env0 cfgPlain exFalse (oneClock 0) recA stPlain
    (by decide) (by decide) (by decide)

/-- C10: `SetHeadFoot` always installs the new templates; when the current
session's line counter is zero — as right after the file was opened with
the previous header already written — it immediately appends the newly
formatted header as well, and when a record has been counted it writes
nothing. -/
theorem c10_setheadfoot (env : Env) (cfg : Config) (st : FWState)
    (now now2 : Int) (head foot : String) :
    ((SetHeadFoot env now2 head foot cfg (openNew env cfg now st)).2.primary
        = some ((st.primary.getD [])
            ++ [env.fmt cfg.header (hdrRec now), env.fmt head (hdrRec now2)]) ∧
      (SetHeadFoot env now2 head foot cfg (openNew env cfg now st)).1.header = head ∧
      (SetHeadFoot env now2 head foot cfg (openNew env cfg now st)).1.trailer = foot) ∧
    (∀ st2 : FWState, st2.maxlines_curlines ≠ 0 →
      (SetHeadFoot env now2 head foot cfg st2).2 = st2 ∧
      (SetHeadFoot env now2 head foot cfg st2).1.header = head ∧
      (SetHeadFoot env now2 head foot cfg st2).1.trailer = foot) := by
  constructor
  · have hc : (openNew env cfg now st).maxlines_curlines = 0 :=
      openNew_curlines env cfg now st
    unfold SetHeadFoot
    dsimp only
    rw [hc]
    simp
  · intro st2 h
    unfold SetHeadFoot
    dsimp only
    rw [if_neg h]
    exact ⟨rfl, rfl, rfl⟩

/-- C10 witness: after an open (counter zero) the new header is appended
behind the one written at open time; with one line counted the state is
untouched while the templates change. -/
theorem c10_setheadfoot_witness :
    ((SetHeadFoot env0 1 "H" "T" cfgPlain (openNew env0 cfgPlain 0 stPlain)).2.primary
        = some ((stPlain.primary.getD [])
            ++ [env0.fmt cfgPlain.header (hdrRec 0), env0.fmt "H" (hdrRec 1)]) ∧
      (SetHeadFoot env0 1 "H" "T" cfgPlain (openNew env0 cfgPlain 0 stPlain)).1.header = "H" ∧
      (SetHeadFoot env0 1 "H" "T" cfgPlain (openNew env0 cfgPlain 0 stPlain)).1.trailer = "T") ∧
    ((SetHeadFoot env0 1 "H" "T" cfgPlain stOneLine).2 = stOneLine ∧
      (SetHeadFoot env0 1 "H" "T" cfgPlain stOneLine).1.header = "H" ∧
      (SetHeadFoot env0 1 "H" "T" cfgPlain stOneLine).1.trailer = "T") :=
  ⟨(c10_setheadfoot env0 cfgPlain stPlain 0 1 "H" "T").1,
   (c10_setheadfoot env0 cfgPlain stPlain 0 1 "H" "T").2 stOneLine (by decide)⟩

end Log4go
